import Mathlib

/-!
Verification of the cj-scraper discovery-and-filtering pipeline.

The JavaScript sources are shallowly embedded: pure functions become Lean
functions, the paginated fetch / retry / batch loops become recursive
functions over explicit oracles (per-page responses, per-attempt classifier
outcomes, per-checkpoint cancellation flags), and JS exceptions become
`Except` values.  Strings are handled as `List Char` (JS `split`,
`toLowerCase` and `includes` are reimplemented there so that everything
kernel-evaluates; `Char.toLower` matches JS `toLowerCase` on the ASCII
inputs involved).  Page numbers and counters are `Nat`; percentages are
`Rat` (JS division by zero yields the non-numeric NaN/Infinity, modelled
as `none`).
-/

namespace CJScraper

/-- JS `String.prototype.split` with a separator recognised by `p`, e.g.
`split(' ')` with `p := (· = ' ')`: consecutive separators produce empty
fields and the result is never empty (`"".split(' ') = [""]`). -/
def jsSplit (p : Char → Bool) : List Char → List (List Char)
  | [] => [[]]
  | c :: rest =>
    match jsSplit p rest with
    | [] => [[]]
    | w :: ws => if p c then [] :: w :: ws else (c :: w) :: ws

/-- JS `s.includes(sub)`: `sub` occurs as a contiguous substring of `s`. -/
def strIncludes (s sub : List Char) : Bool :=
  decide (sub <:+: s)

/-- JS `s.toLowerCase()` (ASCII). -/
def jsLower (s : List Char) : List Char :=
  s.map Char.toLower

/-- A fetched product record, as assembled by the fetcher
(`title` and `image` are the fields the filtering pipeline reads). -/
structure Product where
  title : String
  image : String
deriving DecidableEq, Repr

/-- `isRelevantProduct` from backend/server.js lines 92-105 (the "VERY RELAXED"
text filter): lowercase both strings, split the search term on the space
character, keep words of length > 2, and pass iff at least one such word is a
substring of the lowercased title. -/
def isRelevantProduct (productTitle searchTerm : String) : Bool :=
  let lowerTitle := jsLower productTitle.toList
  let lowerSearch := jsLower searchTerm.toList
  let searchWords := (jsSplit (fun c => c = ' ') lowerSearch).filter (fun w => 2 < w.length)
  let matchingWords := searchWords.filter (fun word => strIncludes lowerTitle word)
  decide (1 ≤ matchingWords.length)

/-- The relaxed filter as the spec words it (claim C4): tokenize the keyword
on WHITESPACE, discard tokens of length ≤ 2, pass iff some remaining token is
a case-insensitive substring of the title. -/
def relaxedFilterClaim (title keyword : String) : Prop :=
  ∃ w ∈ (jsSplit Char.isWhitespace (jsLower keyword.toList)).filter (fun t => 2 < t.length),
    w <:+: jsLower title.toList

/-- The relaxed filter with the tokenization the code actually performs
(split on the space character U+0020 only, JS `split(' ')`). -/
def relaxedFilterSpace (title keyword : String) : Prop :=
  ∃ w ∈ (jsSplit (fun c => c = ' ') (jsLower keyword.toList)).filter (fun t => 2 < t.length),
    w <:+: jsLower title.toList

/-- A JS error as inspected by `withRetry` (backend/server.js lines 135-140):
`code` is `error.code` (empty when absent), `message` is `error.message`,
`status` is `error.response?.status`. -/
structure JsError where
  code : String
  message : String
  status : Option Nat
deriving DecidableEq, Repr

/-- The retryability test of `withRetry` (backend/server.js lines 135-140). -/
def isRetryable (e : JsError) : Bool :=
  e.code == "ECONNRESET" || e.code == "ETIMEDOUT" || e.code == "ECONNREFUSED"
    || strIncludes e.message.toList "timeout".toList
    || strIncludes e.message.toList "429".toList
    || (match e.status with
        | some s => decide (500 ≤ s)
        | none => false)

/-- The transient-error classes as the spec/claim words them: connection
reset/refused, timeouts, HTTP 429 rate limiting, 5xx server errors. -/
def transientClaim (e : JsError) : Prop :=
  e.code = "ECONNRESET" ∨ e.code = "ETIMEDOUT" ∨ e.code = "ECONNREFUSED"
    ∨ ("timeout".toList <:+: e.message.toList)
    ∨ ("429".toList <:+: e.message.toList)
    ∨ (∃ s, e.status = some s ∧ 500 ≤ s)

/-- The attempt loop of `withRetry` (backend/server.js lines 128-152).
`fn k` is the outcome of the k-th call of the wrapped operation, `a` the
current attempt number, `r` the number of attempts still allowed after this
one (`r = 0` is the final attempt: its error is thrown, retryable or not).
Returns the result together with the list of backoff delays slept, each
`baseDelayMs * 2 ^ (attempt - 1)`. -/
def withRetryGo {α : Type} (fn : Nat → Except JsError α) (base : Nat) :
    Nat → Nat → Except JsError α × List Nat
  | a, 0 => (fn a, [])
  | a, r + 1 =>
    match fn a with
    | .ok v => (.ok v, [])
    | .error e =>
      if isRetryable e then
        let rest := withRetryGo fn base (a + 1) r
        (rest.1, base * 2 ^ (a - 1) :: rest.2)
      else (.error e, [])

/-- `withRetry(fn, maxRetries, baseDelayMs)` (backend/server.js lines 128-152):
attempts run from 1 to `maxRetries`.  (The callers use `maxRetries ≥ 1`;
the embedding agrees with the source for those.) -/
def withRetry {α : Type} (fn : Nat → Except JsError α) (maxRetries base : Nat) :
    Except JsError α × List Nat :=
  withRetryGo fn base 1 (maxRetries - 1)

/-- `analyzeProductImage` (backend/server.js lines 156-362).  `hasCreds` is
whether any Google Vision credential is configured (lines 159-161: without
credentials the function returns `true` at once).  Each retry attempt —
image download, label detection and the dynamic expected-label match — is
abstracted as the oracle `attempt : Nat → Except JsError Bool`, which either
throws or yields the label-match verdict; the surrounding policy (the
`withRetry` call with 3 attempts and 1000ms base delay, and the outer catch
returning `true` on any remaining error, lines 357-361) is embedded
faithfully. -/
def analyzeProductImage (hasCreds : Bool) (attempt : Nat → Except JsError Bool) : Bool :=
  if hasCreds = false then true
  else
    match (withRetry attempt 3 1000).1 with
    | .ok passed => passed
    | .error _ => true

/-- Text-filter stage of `app.post('/api/scrape')` (backend/server.js lines
429-437): filter by `isRelevantProduct`, then cap at
`MAX_PRODUCTS_TO_PROCESS = 1000` items. -/
def textFilteredOf (products : List Product) (keyword : String) : List Product :=
  let filtered := products.filter (fun p => isRelevantProduct p.title keyword)
  if 1000 < filtered.length then filtered.take 1000 else filtered

/-- Per-item evaluation inside a Vision batch (backend/server.js lines
476-487): an item with a falsy (empty) `image` is marked failed without
calling the classifier; otherwise the classifier's verdict is used. -/
def batchEval (classify : Product → Bool) (p : Product) : Bool :=
  if p.image = "" then false else classify p

/-- The Vision batch loop (backend/server.js lines 455-510): process the
text-survivors in groups of `VISION_BATCH_SIZE = 50`; before batch `k` the
cancellation flag and the elapsed-time budget are checked (`stop k` is the
disjunction of the two checks at that checkpoint) and the loop breaks,
keeping what is accumulated; survivors of each batch are appended in input
order. -/
def imageLoopGo (classify : Product → Bool) (stop : Nat → Bool) :
    Nat → Nat → List Product → List Product
  | 0, _, _ => []
  | _ + 1, _, [] => []
  | fuel + 1, k, c :: rest =>
    if stop k then []
    else ((c :: rest).take 50).filter (batchEval classify)
      ++ imageLoopGo classify stop fuel (k + 1) ((c :: rest).drop 50)

/-- The batch loop entered at batch 0.  `imageLoopGo` is structurally
recursive on a fuel argument only so that it evaluates inside the kernel;
each iteration removes at least one item, so fuel `l.length` is exact. -/
def imageLoop (classify : Product → Bool) (stop : Nat → Bool) (k : Nat)
    (l : List Product) : List Product :=
  imageLoopGo classify stop l.length k l

/-- Filter portion of the orchestrator (backend/server.js lines 429-515):
text filter and cap, then — if image detection is enabled and any
text-survivor exists — the Vision batch loop. -/
def scrapeFinal (products : List Product) (keyword : String) (useImageDetection : Bool)
    (classify : Product → Bool) (stop : Nat → Bool) : List Product :=
  let textFiltered := textFilteredOf products keyword
  if useImageDetection && decide (0 < textFiltered.length) then
    imageLoop classify stop 0 textFiltered
  else textFiltered

/-- The result of one `searchCJProducts` call as the orchestrator reads it:
the `success` flag, the accumulated products, and the reported
`fetchedPages`. -/
structure FetchResult where
  success : Bool
  products : List Product
  fetchedPages : Nat
deriving DecidableEq, Repr

/-- The orchestrator around the filter stages (backend/server.js lines
389-515 of `app.post('/api/scrape')`): the cancellation flag is read before
the fetch (line 404) and again after it (line 425), each time throwing
`'Scrape cancelled by user'`; a failed fetch throws (lines 420-422); the
filter stages follow.  `cancelPre`/`cancelPost` are the flag values observed
at those two checkpoints. -/
def scrapeJob (cancelPre cancelPost : Bool) (apiResult : FetchResult) (keyword : String)
    (useImageDetection : Bool) (classify : Product → Bool) (stop : Nat → Bool) :
    Except String (List Product) :=
  if cancelPre then .error "Scrape cancelled by user"
  else if apiResult.success = false then .error "CJ API request failed"
  else if cancelPost then .error "Scrape cancelled by user"
  else .ok (scrapeFinal apiResult.products keyword useImageDetection classify stop)

/-- A scrape session entry of the `activeScrapes` map
(backend/server.js line 387). -/
structure Session where
  cancelled : Bool
  startedAt : Nat
deriving DecidableEq, Repr

/-- JS `activeScrapes.get(id)`: lookup in the session map (represented as an
association list; a JS Map has unique keys, so first match is the match). -/
def scrapeGet : List (String × Session) → String → Option Session
  | [], _ => none
  | pr :: rest, id => if pr.1 == id then some pr.2 else scrapeGet rest id

/-- The checkpoint read `activeScrapes.get(scrapeId)?.cancelled`
(backend/server.js lines 404, 425, 457): when the session is absent from the
map, the optional-chained read is `undefined`, which is falsy — the
checkpoint observes no cancellation. -/
def observedCancelled (m : List (String × Session)) (id : String) : Bool :=
  match scrapeGet m id with
  | some s => s.cancelled
  | none => false

/-- `app.post('/api/scrape/cancel')` (backend/server.js lines 568-583): when
the session exists, its `cancelled` flag is set in place — the entry stays
in the map, so later checkpoint reads through `activeScrapes.get` see the
flag.  (`cancelScrape(scrapeId)` is also forwarded to the fetcher module,
which is absent from src/.) -/
def cancelScrapeOne (m : List (String × Session)) (id : String) :
    List (String × Session) :=
  m.map (fun pr => if pr.1 == id then (pr.1, { pr.2 with cancelled := true }) else pr)

/-- The `forEach` body of `app.post('/api/scrape/cancel-all')`
(backend/server.js lines 588-592): every session object's `cancelled` flag
is set (and its id collected, and `cancelScrape(id)` forwarded).  These
writes land on the session objects themselves. -/
def cancelAllFlagged (sessions : List (String × Session)) : List (String × Session) :=
  sessions.map (fun pr => (pr.1, { pr.2 with cancelled := true }))

/-- `app.post('/api/scrape/cancel-all')` (backend/server.js lines 586-596):
after the `forEach` (see `cancelAllFlagged`), line 593 runs
`activeScrapes.clear()`, so the map this endpoint leaves behind is EMPTY.
Returns that final map together with the reported ids.  Because every
checkpoint reads the flag through `activeScrapes.get(scrapeId)` (see
`observedCancelled`), the just-set flags live on orphaned session objects
and are unobservable to running jobs after the clear. -/
def cancelAllScrapes (sessions : List (String × Session)) :
    List (String × Session) × List String :=
  ([], sessions.map (fun pr => pr.1))

/-- The `passRate` reported by `app.post('/api/scrape')` (backend/server.js
line 531): `(finalProducts.length / apiResult.totalProducts) * 100`, with no
zero-denominator guard — in JS a zero denominator produces the non-numeric
NaN/Infinity (rendered "NaN%"), modelled as `none`. -/
def serverPassRate (finalCount totalProducts : Nat) : Option Rat :=
  if totalProducts = 0 then none
  else some ((finalCount : Rat) * 100 / (totalProducts : Rat))

/-- The `passRate` of the legacy `/api/scrape` endpoint
(backend/cj-api-scraper.js lines 455-457): `filtered.length /
allProducts.length * 100` when any product was fetched, else `'0%'`. -/
def legacyPassRate (filteredCount totalFound : Nat) : Rat :=
  if 0 < totalFound then (filteredCount : Rat) * 100 / (totalFound : Rat) else 0

/-- The overall pass rate as the spec/claim words it: `finalCount /
totalFetched` as a percentage, zero denominator guarded to 0%. -/
def claimPassRate (finalCount totalFetched : Nat) : Rat :=
  if totalFetched = 0 then 0 else (finalCount : Rat) * 100 / (totalFetched : Rat)

/-- Pass-rate field of the assembled result (backend/server.js lines
520-535), as a function of the upstream-reported total and the final
product list. -/
def resultPassRate (apiTotalProducts : Nat) (finalProducts : List Product) : Option Rat :=
  serverPassRate finalProducts.length apiTotalProducts

/-- Page-2-onward accumulation of `searchCJProducts` with `fetchAllPages`
(api/scrape.js lines 408-431): for each page from 2 to `totalPages` the
recursive single-page call either succeeds (its products are concatenated)
or fails (the page is skipped with a log and the loop continues).
`oracle p` is the outcome of the page-`p` request. -/
def pageStep (oracle : Nat → Except String (List Product)) (acc : List Product)
    (p : Nat) : List Product :=
  match oracle p with
  | .ok l => acc ++ l
  | .error _ => acc

def collectPages (oracle : Nat → Except String (List Product)) (totalPages : Nat)
    (init : List Product) : List Product :=
  (List.range' 2 (totalPages - 1)).foldl (pageStep oracle) init

/-- `searchCJProducts` (api/scrape.js lines 324-457): a page-1 failure is
caught and returns `success: false` with no products; on success the
remaining pages are fetched when `fetchAllPages` and `totalPages > 1`, and
`fetchedPages` is reported as `totalPages` (resp. 1). -/
def searchCJProductsAll (oracle : Nat → Except String (List Product)) (totalPages : Nat)
    (fetchAllPages : Bool) : FetchResult :=
  match oracle 1 with
  | .error _ => ⟨false, [], 0⟩
  | .ok l1 =>
    if fetchAllPages && decide (1 < totalPages) then
      ⟨true, collectPages oracle totalPages l1, totalPages⟩
    else ⟨true, l1, if fetchAllPages then totalPages else 1⟩

/-- The page numbers requested by `searchCJProductsAll`: page 1 always; when
it succeeds and `fetchAllPages`, every page from 2 to `totalPages` —
regardless of individual page failures (api/scrape.js lines 412-428). -/
def searchTrace (oracle : Nat → Except String (List Product)) (totalPages : Nat)
    (fetchAllPages : Bool) : List Nat :=
  match oracle 1 with
  | .error _ => [1]
  | .ok _ => 1 :: (if fetchAllPages && decide (1 < totalPages) then
      List.range' 2 (totalPages - 1) else [])

/-- Page trace of the pagination loop of `scrapeCJDropshipping`
(api/scrape.js lines 87-197): request page `p`; stop after an empty page;
otherwise advance to `p+1` unless `totalPages` (when detected nonzero) is
exceeded or the safety limit of 10 pages is hit.  The loop performs at most
10 iterations, so fuel 10 (see `scrapeCJTrace`) is exact. -/
def scrapeCJTraceGo (upstream : Nat → List Product) (totalPages : Nat) :
    Nat → Nat → List Nat
  | 0, _ => []
  | fuel + 1, p =>
    p :: (if (upstream p).length = 0 then []
      else if (decide (totalPages ≠ 0) && decide (totalPages < p + 1))
          || decide (10 < p + 1) then []
      else scrapeCJTraceGo upstream totalPages fuel (p + 1))

/-- Page trace of `scrapeCJDropshipping`, starting at page 1. -/
def scrapeCJTrace (upstream : Nat → List Product) (totalPages : Nat) : List Nat :=
  scrapeCJTraceGo upstream totalPages 10 1

/-- The upstream offset ceiling.  backend/server.js imports `MAX_OFFSET` from
the current backend/cj-api-scraper.js, which is not among the sources; the
value 6000 is the spec's (scenario "maximum offset = 6000"). -/
def MAX_OFFSET : Nat := 6000

/-- Effective total page count: `Math.ceil(total / pageSize)`. -/
def totalPagesOf (total pageSize : Nat) : Nat := (total + pageSize - 1) / pageSize

/-- Modelled from the spec: the pagination of the CURRENT paginated fetcher
(`searchCJProducts` of backend/cj-api-scraper.js, the module server.js
imports `MAX_OFFSET`/`cancelScrape` from) is not among the sources — only
its caller and older versions are.  Per spec §4.1/§8 it requests pages
sequentially and stops exactly at the first of: empty page, upstream
total page count reached, next page's starting offset reaching the
`MAX_OFFSET` ceiling.  `fetchTraceSpecGo` handles pages ≥ 2: page `p` is
requested iff `p ≤ totalPages` and `(p-1)*pageSize < MAX_OFFSET`, and the
loop continues past `p` only if its page was nonempty. -/
def fetchTraceSpecGo (upstream : Nat → List Product) (totalPages pageSize : Nat) :
    Nat → Nat → List Nat
  | 0, _ => []
  | fuel + 1, p =>
    if totalPages < p then []
    else if MAX_OFFSET ≤ (p - 1) * pageSize then []
    else p :: (if upstream p = [] then []
      else fetchTraceSpecGo upstream totalPages pageSize fuel (p + 1))

/-- Modelled from the spec: the full page trace of the current fetcher.
Page 1 is always requested (the upstream total and reported page size are
read from its response); later pages follow `fetchTraceSpecGo`. -/
def fetchTraceSpec (upstream : Nat → List Product) (total pageSize : Nat) : List Nat :=
  let totalPages := totalPagesOf total pageSize
  1 :: (if upstream 1 = [] then []
    else fetchTraceSpecGo upstream totalPages pageSize (totalPages + 1) 2)

end CJScraper

namespace CJScraper

theorem one_le_length_filter_iff {α : Type} (p : α → Bool) (l : List α) :
    1 ≤ (l.filter p).length ↔ ∃ x ∈ l, p x = true := by
  rw [Nat.one_le_iff_ne_zero, ← Nat.pos_iff_ne_zero, List.length_pos_iff_exists_mem]
  simp [List.mem_filter]

/-- Claim C4 (amended): the relaxed text relevance filter is a pure function of
(title, keyword) that splits the keyword on the space character, discards
tokens of length ≤ 2, and returns true iff at least one remaining token is a
case-insensitive substring of the title; keyword "sherpa blanket" fails title
"Pet Cooling Mat" and passes title "Sherpa Fleece Throw Blanket Queen". -/
theorem C4_relaxed_filter (title keyword : String) :
    (isRelevantProduct title keyword = true ↔ relaxedFilterSpace title keyword)
    ∧ isRelevantProduct "Pet Cooling Mat" "sherpa blanket" = false
    ∧ isRelevantProduct "Sherpa Fleece Throw Blanket Queen" "sherpa blanket" = true := by
  refine ⟨?_, by decide, by decide⟩
  unfold isRelevantProduct relaxedFilterSpace strIncludes
  simp only [decide_eq_true_eq]
  rw [one_le_length_filter_iff]
  simp [List.mem_filter]

/-- Claim C4, counterexample to the claim as stated: the code splits the
keyword on the space character only, not on whitespace.  For the keyword
"sherpa\tblanket" (tab-separated) the whitespace-tokenization described by the
claim yields the token "sherpa", which is a substring of "Sherpa Fleece", so
the claim says the filter passes; the code returns false. -/
theorem C4_counterexample :
    isRelevantProduct "Sherpa Fleece" "sherpa\tblanket" = false
    ∧ relaxedFilterClaim "Sherpa Fleece" "sherpa\tblanket" := by
  constructor
  · decide
  · unfold relaxedFilterClaim
    decide

theorem isRetryable_iff_transientClaim (e : JsError) :
    isRetryable e = true ↔ transientClaim e := by
  obtain ⟨c, m, st⟩ := e
  cases st <;>
    simp [isRetryable, transientClaim, strIncludes, Bool.or_eq_true, beq_iff_eq] <;>
    tauto

theorem withRetryGo_ok {α : Type} (fn : Nat → Except JsError α) (base a r : Nat) (v : α)
    (h : fn a = .ok v) : withRetryGo fn base a r = (.ok v, []) := by
  cases r <;> simp [withRetryGo, h]

theorem withRetryGo_nonretryable {α : Type} (fn : Nat → Except JsError α) (base a r : Nat)
    (e : JsError) (h : fn a = .error e) (hnr : isRetryable e = false) :
    withRetryGo fn base a r = (.error e, []) := by
  cases r <;> simp [withRetryGo, h, hnr]

theorem withRetryGo_exhaust {α : Type} (fn : Nat → Except JsError α) (base : Nat)
    (err : Nat → JsError) :
    ∀ r a, 1 ≤ a →
      (∀ k, a ≤ k → k ≤ a + r → fn k = .error (err k) ∧ isRetryable (err k) = true) →
      withRetryGo fn base a r
        = (.error (err (a + r)), (List.range r).map (fun i => base * 2 ^ (a - 1 + i))) := by
  intro r
  induction r with
  | zero =>
    intro a _ hall
    obtain ⟨h1, _⟩ := hall a le_rfl (by omega)
    simp [withRetryGo, h1]
  | succ r ih =>
    intro a ha hall
    obtain ⟨h1, h2⟩ := hall a le_rfl (by omega)
    have hrec := ih (a + 1) (by omega) (fun k hk1 hk2 => hall k (by omega) (by omega))
    have hidx : a + 1 + r = a + (r + 1) := by omega
    simp only [withRetryGo, h1, h2, if_true]
    rw [hrec]
    dsimp only
    rw [hidx, List.range_succ_eq_map, List.map_cons, List.map_map]
    refine congrArg (Prod.mk _) ?_
    have htail : base * 2 ^ (a - 1) = (fun i => base * 2 ^ (a - 1 + i)) 0 := by norm_num
    rw [htail]
    refine congrArg (List.cons _) ?_
    apply List.map_congr_left
    intro i _
    show base * 2 ^ (a + 1 - 1 + i) = base * 2 ^ (a - 1 + (i + 1))
    have hexp : a + 1 - 1 + i = a - 1 + (i + 1) := by omega
    rw [hexp]

/-- Claim C9: the download-plus-classify retry wrapper `withRetry` retries
only transient errors (connection reset/refused, timeouts, HTTP 429, 5xx),
with backoff delays doubling per attempt from the fixed base
(`base * 2^(attempt-1)`) up to the `maxRetries` attempt ceiling; a
non-transient error is rethrown at once with no retry and no delay; when
every attempt fails with a transient error, all `maxRetries` attempts run
and the last error is thrown. -/
theorem C9_retry_policy {α : Type} (fn : Nat → Except JsError α) (base maxRetries : Nat)
    (hmax : 1 ≤ maxRetries) :
    (∀ e, isRetryable e = true ↔ transientClaim e)
    ∧ (∀ v, fn 1 = .ok v → withRetry fn maxRetries base = (.ok v, []))
    ∧ (∀ a r e, fn a = .error e → isRetryable e = false →
        withRetryGo fn base a r = (.error e, []))
    ∧ (∀ err : Nat → JsError,
        (∀ k, 1 ≤ k → k ≤ maxRetries → fn k = .error (err k) ∧ isRetryable (err k) = true) →
        withRetry fn maxRetries base
          = (.error (err maxRetries), (List.range (maxRetries - 1)).map (fun i => base * 2 ^ i))) := by
  refine ⟨isRetryable_iff_transientClaim, ?_, ?_, ?_⟩
  · intro v hv
    exact withRetryGo_ok fn base 1 (maxRetries - 1) v hv
  · intro a r e he hnr
    exact withRetryGo_nonretryable fn base a r e he hnr
  · intro err hall
    unfold withRetry
    rw [withRetryGo_exhaust fn base err (maxRetries - 1) 1 le_rfl
      (fun k hk1 hk2 => hall k hk1 (by omega))]
    have h1 : 1 + (maxRetries - 1) = maxRetries := by omega
    rw [h1]
    simp

/-- Claim C9, witness: an operation that always fails with ECONNRESET under
`withRetry(·, 3, 1000)` runs all 3 attempts, sleeps 1000ms then 2000ms, and
throws the last error. -/
theorem C9_retry_policy_witness :
    1 ≤ 3
    ∧ withRetry (fun _ => (.error ⟨"ECONNRESET", "socket hang up", none⟩ : Except JsError Bool))
        3 1000
      = (.error ⟨"ECONNRESET", "socket hang up", none⟩, [1000, 2000]) := by
  constructor
  · decide
  · have h := (C9_retry_policy
      (fun _ => (.error ⟨"ECONNRESET", "socket hang up", none⟩ : Except JsError Bool))
      1000 3 (by decide)).2.2.2
      (fun _ => ⟨"ECONNRESET", "socket hang up", none⟩)
      (fun k _ _ =>
        ⟨rfl, show isRetryable ⟨"ECONNRESET", "socket hang up", none⟩ = true by decide⟩)
    have hm : (List.range (3 - 1)).map (fun i => 1000 * 2 ^ i) = [1000, 2000] := by decide
    rw [hm] at h
    exact h

theorem imageLoopGo_mem (classify : Product → Bool) (stop : Nat → Bool) :
    ∀ (fuel : Nat) (l : List Product) (k : Nat) (p : Product),
      p ∈ imageLoopGo classify stop fuel k l → p ∈ l ∧ batchEval classify p = true := by
  intro fuel
  induction fuel with
  | zero => intro l k p hp; simp [imageLoopGo] at hp
  | succ fuel ih =>
    intro l k p hp
    cases l with
    | nil => simp [imageLoopGo] at hp
    | cons c rest =>
      rw [imageLoopGo] at hp
      cases hs : stop k with
      | true => simp [hs] at hp
      | false =>
        simp only [hs, Bool.false_eq_true, if_false, List.mem_append] at hp
        rcases hp with hp | hp
        · rw [List.mem_filter] at hp
          exact ⟨List.take_subset 50 (c :: rest) hp.1, hp.2⟩
        · obtain ⟨hmem, hpass⟩ := ih ((c :: rest).drop 50) (k + 1) p hp
          exact ⟨List.drop_subset 50 (c :: rest) hmem, hpass⟩

theorem imageLoopGo_length (classify : Product → Bool) (stop : Nat → Bool) :
    ∀ (fuel : Nat) (l : List Product) (k : Nat),
      (imageLoopGo classify stop fuel k l).length ≤ l.length := by
  intro fuel
  induction fuel with
  | zero => intro l k; simp [imageLoopGo]
  | succ fuel ih =>
    intro l k
    cases l with
    | nil => simp [imageLoopGo]
    | cons c rest =>
      rw [imageLoopGo]
      cases hs : stop k with
      | true => simp [hs]
      | false =>
        simp only [hs, Bool.false_eq_true, if_false, List.length_append]
        have h1 : (((c :: rest).take 50).filter (batchEval classify)).length
            ≤ ((c :: rest).take 50).length := List.length_filter_le _ _
        have h2 := ih ((c :: rest).drop 50) (k + 1)
        have h3 : ((c :: rest).take 50).length = min 50 (c :: rest).length :=
          List.length_take 50 (c :: rest)
        have h4 : ((c :: rest).drop 50).length = (c :: rest).length - 50 :=
          List.length_drop 50 (c :: rest)
        omega

theorem imageLoopGo_noStop (classify : Product → Bool) (stop : Nat → Bool)
    (hstop : ∀ i, stop i = false) :
    ∀ (fuel : Nat) (l : List Product) (k : Nat), l.length ≤ fuel →
      imageLoopGo classify stop fuel k l = l.filter (batchEval classify) := by
  intro fuel
  induction fuel with
  | zero =>
    intro l k hl
    have hnil : l = [] := List.length_eq_zero.mp (by omega)
    subst hnil
    simp [imageLoopGo]
  | succ fuel ih =>
    intro l k hl
    cases l with
    | nil => simp [imageLoopGo]
    | cons c rest =>
      rw [imageLoopGo]
      simp only [hstop k, Bool.false_eq_true, if_false]
      have hlen : ((c :: rest).drop 50).length ≤ fuel := by
        rw [List.length_drop]
        simp only [List.length_cons] at hl ⊢
        omega
      rw [ih ((c :: rest).drop 50) (k + 1) hlen, ← List.filter_append,
        List.take_append_drop]

theorem batchEval_congr (c₁ c₂ : Product → Bool)
    (h : ∀ p, p.image ≠ "" → c₁ p = c₂ p) (p : Product) :
    batchEval c₁ p = batchEval c₂ p := by
  unfold batchEval
  by_cases hi : p.image = ""
  · simp [hi]
  · simp [hi, h p hi]

theorem imageLoopGo_congr (c₁ c₂ : Product → Bool) (stop : Nat → Bool)
    (h : ∀ p, p.image ≠ "" → c₁ p = c₂ p) :
    ∀ (fuel : Nat) (l : List Product) (k : Nat),
      imageLoopGo c₁ stop fuel k l = imageLoopGo c₂ stop fuel k l := by
  intro fuel
  induction fuel with
  | zero => intro l k; simp [imageLoopGo]
  | succ fuel ih =>
    intro l k
    cases l with
    | nil => simp [imageLoopGo]
    | cons c rest =>
      rw [imageLoopGo, imageLoopGo]
      cases hs : stop k with
      | true => simp [hs]
      | false =>
        simp only [hs, Bool.false_eq_true, if_false]
        rw [ih ((c :: rest).drop 50) (k + 1),
          List.filter_congr (fun p _ => batchEval_congr c₁ c₂ h p)]

theorem imageLoopGo_cancel_at (classify : Product → Bool) (stop : Nat → Bool) :
    ∀ (j fuel : Nat) (l : List Product) (k : Nat), l.length ≤ fuel →
      (∀ i, i < j → stop (k + i) = false) → stop (k + j) = true →
      imageLoopGo classify stop fuel k l = (l.take (50 * j)).filter (batchEval classify) := by
  intro j
  induction j with
  | zero =>
    intro fuel l k _ _ hstop
    have hk : stop k = true := by simpa using hstop
    cases fuel with
    | zero => simp [imageLoopGo]
    | succ fuel =>
      cases l with
      | nil => simp [imageLoopGo]
      | cons c rest => simp [imageLoopGo, hk]
  | succ j ih =>
    intro fuel l k hfuel hfalse hstop
    have hk : stop k = false := by
      have := hfalse 0 (by omega)
      simpa using this
    cases fuel with
    | zero =>
      have hnil : l = [] := List.length_eq_zero.mp (by omega)
      subst hnil
      simp [imageLoopGo]
    | succ fuel =>
      cases l with
      | nil => simp [imageLoopGo]
      | cons c rest =>
        rw [imageLoopGo]
        simp only [hk, Bool.false_eq_true, if_false]
        have hlen : ((c :: rest).drop 50).length ≤ fuel := by
          rw [List.length_drop]
          simp only [List.length_cons] at hfuel ⊢
          omega
        rw [ih fuel ((c :: rest).drop 50) (k + 1) hlen
          (fun i hi => by
            have hh := hfalse (i + 1) (by omega)
            have harr : k + (i + 1) = k + 1 + i := by omega
            rw [harr] at hh
            exact hh)
          (by
            have harr : k + 1 + j = k + (j + 1) := by omega
            rw [harr]; exact hstop)]
        have hsplit : 50 * (j + 1) = 50 + 50 * j := by ring
        rw [hsplit, List.take_add, List.filter_append]

theorem textFilteredOf_subset (products : List Product) (keyword : String) :
    ∀ p ∈ textFilteredOf products keyword,
      p ∈ products ∧ isRelevantProduct p.title keyword = true := by
  intro p hp
  unfold textFilteredOf at hp
  by_cases h : 1000 < (products.filter (fun q => isRelevantProduct q.title keyword)).length
  · rw [if_pos h] at hp
    have hmem := List.take_subset 1000 _ hp
    rw [List.mem_filter] at hmem
    exact hmem
  · rw [if_neg h] at hp
    rw [List.mem_filter] at hp
    exact hp

theorem textFilteredOf_length_le (products : List Product) (keyword : String) :
    (textFilteredOf products keyword).length ≤ products.length := by
  unfold textFilteredOf
  by_cases h : 1000 < (products.filter (fun q => isRelevantProduct q.title keyword)).length
  · rw [if_pos h]
    have h1 := List.length_take 1000 (products.filter (fun q => isRelevantProduct q.title keyword))
    have h2 := List.length_filter_le (fun q => isRelevantProduct q.title keyword) products
    omega
  · rw [if_neg h]
    exact List.length_filter_le _ _

/-- Claim C3: per-stage containment.  For every job input (any fetched list,
keyword, image toggle, classifier and stop oracle): the final count is at
most the text-passed count, which is at most the fetched count; every final
item is a text-survivor; every text-survivor is a fetched item that passed
the text filter (so the image stage only ever sees text-survivors). -/
theorem C3_stage_monotone (products : List Product) (keyword : String)
    (useImageDetection : Bool) (classify : Product → Bool) (stop : Nat → Bool) :
    (scrapeFinal products keyword useImageDetection classify stop).length
        ≤ (textFilteredOf products keyword).length
    ∧ (textFilteredOf products keyword).length ≤ products.length
    ∧ (∀ p ∈ scrapeFinal products keyword useImageDetection classify stop,
        p ∈ textFilteredOf products keyword)
    ∧ (∀ p ∈ textFilteredOf products keyword,
        p ∈ products ∧ isRelevantProduct p.title keyword = true) := by
  refine ⟨?_, textFilteredOf_length_le products keyword, ?_,
    textFilteredOf_subset products keyword⟩
  · simp only [scrapeFinal]
    by_cases h : (useImageDetection
        && decide (0 < (textFilteredOf products keyword).length)) = true
    · rw [if_pos h]
      unfold imageLoop
      exact imageLoopGo_length classify stop _ _ 0
    · rw [if_neg h]
  · simp only [scrapeFinal]
    by_cases h : (useImageDetection
        && decide (0 < (textFilteredOf products keyword).length)) = true
    · rw [if_pos h]
      intro p hp
      unfold imageLoop at hp
      exact (imageLoopGo_mem classify stop _ _ 0 p hp).1
    · rw [if_neg h]
      intro p hp
      exact hp

/-- Claim C3, witness at a concrete job input. -/
theorem C3_stage_monotone_witness :
    (scrapeFinal [⟨"sherpa blanket", "http://img"⟩] "sherpa" true
        (fun _ => true) (fun _ => false)).length
      ≤ (textFilteredOf [⟨"sherpa blanket", "http://img"⟩] "sherpa").length
    ∧ (textFilteredOf [⟨"sherpa blanket", "http://img"⟩] "sherpa").length
      ≤ ([⟨"sherpa blanket", "http://img"⟩] : List Product).length :=
  ⟨(C3_stage_monotone [⟨"sherpa blanket", "http://img"⟩] "sherpa" true
      (fun _ => true) (fun _ => false)).1,
   (C3_stage_monotone [⟨"sherpa blanket", "http://img"⟩] "sherpa" true
      (fun _ => true) (fun _ => false)).2.1⟩

/-- Claim C10: with image detection enabled, an item whose image URL is empty
is marked failed without being classified and is excluded from the final
result; every final item carries a non-empty image URL; and the pipeline
output never depends on the classifier's value at empty-image items (the
classifier is only ever consulted on items with a non-empty image URL). -/
theorem C10_empty_image (products : List Product) (keyword : String)
    (classify : Product → Bool) (stop : Nat → Bool) :
    (∀ p : Product, p.image = "" → batchEval classify p = false)
    ∧ (∀ p ∈ scrapeFinal products keyword true classify stop, p.image ≠ "")
    ∧ (∀ p, p ∈ textFilteredOf products keyword → p.image = "" →
        p ∉ scrapeFinal products keyword true classify stop)
    ∧ (∀ c₂ : Product → Bool, (∀ p, p.image ≠ "" → classify p = c₂ p) →
        scrapeFinal products keyword true classify stop
          = scrapeFinal products keyword true c₂ stop) := by
  have hmarked : ∀ p : Product, p.image = "" → batchEval classify p = false := by
    intro p hp
    simp [batchEval, hp]
  have himgne : ∀ p ∈ scrapeFinal products keyword true classify stop, p.image ≠ "" := by
    simp only [scrapeFinal]
    by_cases h : (true && decide (0 < (textFilteredOf products keyword).length)) = true
    · rw [if_pos h]
      intro p hp hempty
      unfold imageLoop at hp
      have hpass := (imageLoopGo_mem classify stop _ _ 0 p hp).2
      rw [hmarked p hempty] at hpass
      exact Bool.false_ne_true hpass
    · rw [if_neg h]
      intro p hp _
      have hlen : (textFilteredOf products keyword).length = 0 := by
        simp only [Bool.true_and] at h
        rcases Nat.eq_zero_or_pos (textFilteredOf products keyword).length with h0 | h0
        · exact h0
        · exact absurd (decide_eq_true_eq.mpr h0) h
      rw [List.length_eq_zero.mp hlen] at hp
      exact (List.not_mem_nil p) hp
  refine ⟨hmarked, himgne, fun p _ hempty hmem => himgne p hmem hempty, ?_⟩
  intro c₂ hagree
  simp only [scrapeFinal]
  by_cases h : (true && decide (0 < (textFilteredOf products keyword).length)) = true
  · rw [if_pos h, if_pos h]
    unfold imageLoop
    exact imageLoopGo_congr classify c₂ stop hagree _ _ 0
  · rw [if_neg h, if_neg h]

/-- Claim C10, witness: a text-survivor with an empty image URL is excluded
from the final result set. -/
theorem C10_empty_image_witness :
    (⟨"sherpa blanket throw", ""⟩ : Product)
        ∈ textFilteredOf [⟨"sherpa blanket throw", ""⟩] "sherpa"
    ∧ (⟨"sherpa blanket throw", ""⟩ : Product)
        ∉ scrapeFinal [⟨"sherpa blanket throw", ""⟩] "sherpa" true
            (fun _ => true) (fun _ => false) :=
  ⟨by decide,
   (C10_empty_image [⟨"sherpa blanket throw", ""⟩] "sherpa"
      (fun _ => true) (fun _ => false)).2.2.1 ⟨"sherpa blanket throw", ""⟩
      (by decide) rfl⟩

theorem withRetryGo_all_error {α : Type} (fn : Nat → Except JsError α) (base : Nat)
    (hAll : ∀ k, ∃ e, fn k = .error e) :
    ∀ (r a : Nat), ∃ e, (withRetryGo fn base a r).1 = .error e := by
  intro r
  induction r with
  | zero =>
    intro a
    obtain ⟨e, he⟩ := hAll a
    exact ⟨e, by simp [withRetryGo, he]⟩
  | succ r ih =>
    intro a
    obtain ⟨e, he⟩ := hAll a
    cases hr : isRetryable e with
    | false => exact ⟨e, by simp [withRetryGo, he, hr]⟩
    | true =>
      obtain ⟨e2, he2⟩ := ih (a + 1)
      exact ⟨e2, by simp [withRetryGo, he, hr, he2]⟩

theorem analyzeProductImage_allError (attempt : Nat → Except JsError Bool)
    (hAll : ∀ k, ∃ e, attempt k = .error e) :
    analyzeProductImage true attempt = true := by
  obtain ⟨e, he⟩ := withRetryGo_all_error attempt 1000 hAll (3 - 1) 1
  simp only [analyzeProductImage, withRetry] at he ⊢
  rw [he]
  rfl

/-- Claim C2 (amended): the image classifier returns pass when no
classification credential is configured, and returns pass on any error
remaining after retries are exhausted; consequently, when the backend is
unreachable for every call, every text-survivor WITH A NON-EMPTY IMAGE URL
passes image filtering, and the final result is exactly the text-survivors
with a non-empty image URL (an empty-image survivor is still dropped, see
C10). -/
theorem C2_fail_open (products : List Product) (keyword : String)
    (att : Product → Nat → Except JsError Bool)
    (hUnreach : ∀ p k, ∃ e, att p k = .error e) :
    (∀ oracle : Nat → Except JsError Bool, analyzeProductImage false oracle = true)
    ∧ (∀ p : Product, analyzeProductImage true (att p) = true)
    ∧ scrapeFinal products keyword true
        (fun p => analyzeProductImage true (att p)) (fun _ => false)
      = (textFilteredOf products keyword).filter (fun p => decide (p.image ≠ "")) := by
  have hnocreds : ∀ oracle : Nat → Except JsError Bool,
      analyzeProductImage false oracle = true := by
    intro oracle
    simp [analyzeProductImage]
  have hpass : ∀ p : Product, analyzeProductImage true (att p) = true :=
    fun p => analyzeProductImage_allError (att p) (hUnreach p)
  refine ⟨hnocreds, hpass, ?_⟩
  simp only [scrapeFinal]
  by_cases h : (true && decide (0 < (textFilteredOf products keyword).length)) = true
  · rw [if_pos h]
    unfold imageLoop
    rw [imageLoopGo_noStop _ _ (fun i => rfl) _ _ 0 le_rfl]
    apply List.filter_congr
    intro p _
    by_cases hi : p.image = ""
    · simp [batchEval, hi]
    · simp [batchEval, hi, hpass p]
  · rw [if_neg h]
    have hlen : (textFilteredOf products keyword).length = 0 := by
      simp only [Bool.true_and] at h
      rcases Nat.eq_zero_or_pos (textFilteredOf products keyword).length with h0 | h0
      · exact h0
      · exact absurd (decide_eq_true_eq.mpr h0) h
    rw [List.length_eq_zero.mp hlen]
    rfl

/-- Claim C2, witness: with the backend refusing every connection, a
text-survivor with a non-empty image URL passes and the final set equals the
non-empty-image text-survivors. -/
theorem C2_fail_open_witness :
    scrapeFinal [⟨"sherpa blanket plush", "http://img.jpg"⟩] "sherpa blanket" true
        (fun _ => analyzeProductImage true
          (fun _ => .error ⟨"ECONNREFUSED", "connect ECONNREFUSED", none⟩))
        (fun _ => false)
      = (textFilteredOf [⟨"sherpa blanket plush", "http://img.jpg"⟩] "sherpa blanket").filter
          (fun p => decide (p.image ≠ "")) :=
  (C2_fail_open [⟨"sherpa blanket plush", "http://img.jpg"⟩] "sherpa blanket"
    (fun _ _ => .error ⟨"ECONNREFUSED", "connect ECONNREFUSED", none⟩)
    (fun _ _ => ⟨⟨"ECONNREFUSED", "connect ECONNREFUSED", none⟩, rfl⟩)).2.2

/-- Claim C2, counterexample to the claim as stated: with the classification
backend unreachable for every call, a text-survivor whose image URL is empty
does NOT pass image filtering — the final count is 0 while the text-filtered
count is 1, so "final count equals the text-filtered count" fails. -/
theorem C2_counterexample :
    (textFilteredOf [⟨"sherpa blanket soft", ""⟩] "sherpa blanket").length = 1
    ∧ scrapeFinal [⟨"sherpa blanket soft", ""⟩] "sherpa blanket" true
        (fun _ => analyzeProductImage true
          (fun _ => .error ⟨"ECONNREFUSED", "connect ECONNREFUSED", none⟩))
        (fun _ => false)
      = [] := by
  constructor
  · decide
  · decide

theorem range'_pairwise_lt : ∀ (n s : Nat), List.Pairwise (· < ·) (List.range' s n) := by
  intro n
  induction n with
  | zero => intro s; simp
  | succ n ih =>
    intro s
    rw [List.range'_succ]
    refine List.Pairwise.cons ?_ (ih (s + 1))
    intro b hb
    rw [List.mem_range'] at hb
    obtain ⟨i, hi, rfl⟩ := hb
    omega

theorem scrapeCJTraceGo_bounds (upstream : Nat → List Product) (totalPages : Nat) :
    ∀ (fuel p : Nat),
      List.Pairwise (· < ·) (scrapeCJTraceGo upstream totalPages fuel p)
      ∧ ∀ q ∈ scrapeCJTraceGo upstream totalPages fuel p, p ≤ q := by
  intro fuel
  induction fuel with
  | zero => intro p; simp [scrapeCJTraceGo]
  | succ fuel ih =>
    intro p
    rw [scrapeCJTraceGo]
    have htail : ∀ q ∈ (if (upstream p).length = 0 then []
        else if (decide (totalPages ≠ 0) && decide (totalPages < p + 1))
            || decide (10 < p + 1) then []
        else scrapeCJTraceGo upstream totalPages fuel (p + 1)), p + 1 ≤ q := by
      intro q hq
      by_cases h1 : (upstream p).length = 0
      · rw [if_pos h1] at hq
        exact absurd hq (List.not_mem_nil q)
      · rw [if_neg h1] at hq
        by_cases h2 : ((decide (totalPages ≠ 0) && decide (totalPages < p + 1))
            || decide (10 < p + 1)) = true
        · rw [if_pos h2] at hq
          exact absurd hq (List.not_mem_nil q)
        · rw [if_neg h2] at hq
          exact (ih (p + 1)).2 q hq
    have htailpw : List.Pairwise (· < ·) (if (upstream p).length = 0 then []
        else if (decide (totalPages ≠ 0) && decide (totalPages < p + 1))
            || decide (10 < p + 1) then []
        else scrapeCJTraceGo upstream totalPages fuel (p + 1)) := by
      by_cases h1 : (upstream p).length = 0
      · rw [if_pos h1]; exact List.Pairwise.nil
      · rw [if_neg h1]
        by_cases h2 : ((decide (totalPages ≠ 0) && decide (totalPages < p + 1))
            || decide (10 < p + 1)) = true
        · rw [if_pos h2]; exact List.Pairwise.nil
        · rw [if_neg h2]; exact (ih (p + 1)).1
    refine ⟨List.Pairwise.cons (fun q hq => by have := htail q hq; omega) htailpw, ?_⟩
    intro q hq
    rcases List.mem_cons.mp hq with rfl | hq2
    · exact le_rfl
    · have := htail q hq2; omega

/-- Claim C5: within a job, page numbers requested from the upstream catalog
API are strictly increasing and never repeated — both for the API fetch loop
of `searchCJProducts` (page 1 then 2..totalPages) and for the sequential
pagination loop of `scrapeCJDropshipping`. -/
theorem C5_pages_strictly_increasing (oracle : Nat → Except String (List Product))
    (totalPages : Nat) (fetchAllPages : Bool) (upstream : Nat → List Product)
    (detectedPages : Nat) :
    List.Pairwise (· < ·) (searchTrace oracle totalPages fetchAllPages)
    ∧ (searchTrace oracle totalPages fetchAllPages).Nodup
    ∧ List.Pairwise (· < ·) (scrapeCJTrace upstream detectedPages)
    ∧ (scrapeCJTrace upstream detectedPages).Nodup := by
  have h1 : List.Pairwise (· < ·) (searchTrace oracle totalPages fetchAllPages) := by
    unfold searchTrace
    cases ho : oracle 1 with
    | error e => simp
    | ok l =>
      refine List.Pairwise.cons ?_ ?_
      · intro b hb
        by_cases hc : (fetchAllPages && decide (1 < totalPages)) = true
        · rw [if_pos hc] at hb
          rw [List.mem_range'] at hb
          obtain ⟨i, hi, rfl⟩ := hb
          omega
        · rw [if_neg hc] at hb
          exact absurd hb (List.not_mem_nil b)
      · by_cases hc : (fetchAllPages && decide (1 < totalPages)) = true
        · rw [if_pos hc]; exact range'_pairwise_lt _ 2
        · rw [if_neg hc]; exact List.Pairwise.nil
  have h2 : List.Pairwise (· < ·) (scrapeCJTrace upstream detectedPages) :=
    (scrapeCJTraceGo_bounds upstream detectedPages 10 1).1
  exact ⟨h1, h1.nodup, h2, h2.nodup⟩

theorem pageStep_foldl_mem_init (oracle : Nat → Except String (List Product)) :
    ∀ (pages : List Nat) (init : List Product) (x : Product),
      x ∈ init → x ∈ pages.foldl (pageStep oracle) init := by
  intro pages
  induction pages with
  | nil => intro init x hx; simpa using hx
  | cons q pages ih =>
    intro init x hx
    rw [List.foldl_cons]
    apply ih
    unfold pageStep
    cases oracle q with
    | ok l => exact List.mem_append_left l hx
    | error e => exact hx

theorem pageStep_foldl_mem_page (oracle : Nat → Except String (List Product)) :
    ∀ (pages : List Nat) (init : List Product) (p : Nat) (l : List Product),
      p ∈ pages → oracle p = .ok l → ∀ x ∈ l, x ∈ pages.foldl (pageStep oracle) init := by
  intro pages
  induction pages with
  | nil => intro init p l hp _ x _; exact absurd hp (List.not_mem_nil p)
  | cons q pages ih =>
    intro init p l hp hol x hx
    rw [List.foldl_cons]
    rcases List.mem_cons.mp hp with rfl | hp2
    · apply pageStep_foldl_mem_init
      unfold pageStep
      rw [hol]
      exact List.mem_append_right init hx
    · exact ih _ p l hp2 hol x hx

/-- Claim C6 (amended): a page-1 failure aborts the whole fetch
(`success: false`, no products) and makes the job fail; a failure on any
page ≥ 2 skips only that page — the items already retrieved are kept, AND
pagination continues through the remaining pages up to `totalPages` (it does
not stop), with every successfully fetched page's items included in the
returned result. -/
theorem C6_page_error_policy (oracle : Nat → Except String (List Product))
    (totalPages : Nat) (keyword : String) (useImageDetection : Bool)
    (classify : Product → Bool) (stop : Nat → Bool) :
    (∀ e, oracle 1 = .error e →
      searchCJProductsAll oracle totalPages true = ⟨false, [], 0⟩
      ∧ scrapeJob false false (searchCJProductsAll oracle totalPages true) keyword
          useImageDetection classify stop = .error "CJ API request failed")
    ∧ (∀ l1, oracle 1 = .ok l1 →
        (searchCJProductsAll oracle totalPages true).success = true
        ∧ (∀ p, 2 ≤ p → p ≤ totalPages → p ∈ searchTrace oracle totalPages true)
        ∧ (∀ x ∈ l1, x ∈ (searchCJProductsAll oracle totalPages true).products)
        ∧ (∀ p l, 2 ≤ p → p ≤ totalPages → oracle p = .ok l →
            ∀ x ∈ l, x ∈ (searchCJProductsAll oracle totalPages true).products)) := by
  constructor
  · intro e he
    constructor
    · unfold searchCJProductsAll
      rw [he]
    · unfold searchCJProductsAll
      rw [he]
      rfl
  · intro l1 h1
    have hproducts : (searchCJProductsAll oracle totalPages true).products
        = if (true && decide (1 < totalPages)) = true
          then collectPages oracle totalPages l1 else l1 := by
      simp only [searchCJProductsAll, h1]
      by_cases hc : (true && decide (1 < totalPages)) = true
      · rw [if_pos hc, if_pos hc]
      · rw [if_neg hc, if_neg hc]
    refine ⟨?_, ?_, ?_, ?_⟩
    · simp only [searchCJProductsAll, h1]
      by_cases hc : (true && decide (1 < totalPages)) = true
      · rw [if_pos hc]
      · rw [if_neg hc]
    · intro p hp2 hptot
      simp only [searchTrace, h1]
      have hc : (true && decide (1 < totalPages)) = true := by
        simp only [Bool.true_and, decide_eq_true_eq]
        omega
      rw [if_pos hc]
      refine List.mem_cons_of_mem 1 ?_
      rw [List.mem_range']
      exact ⟨p - 2, by omega, by omega⟩
    · intro x hx
      rw [hproducts]
      by_cases hc : (true && decide (1 < totalPages)) = true
      · rw [if_pos hc]
        exact pageStep_foldl_mem_init oracle _ l1 x hx
      · rw [if_neg hc]
        exact hx
    · intro p l hp2 hptot hol x hx
      rw [hproducts]
      have hc : (true && decide (1 < totalPages)) = true := by
        simp only [Bool.true_and, decide_eq_true_eq]
        omega
      rw [if_pos hc]
      refine pageStep_foldl_mem_page oracle _ l1 p l ?_ hol x hx
      rw [List.mem_range']
      exact ⟨p - 2, by omega, by omega⟩

/-- Claim C6, witness: page-1 failure means job failure; successful pages'
items are all retained. -/
theorem C6_page_error_policy_witness :
    searchCJProductsAll (fun _ => .error "CJ API Error: Unknown error") 3 true
      = ⟨false, [], 0⟩
    ∧ (⟨"item", "img"⟩ : Product)
        ∈ (searchCJProductsAll (fun _ => .ok [⟨"item", "img"⟩]) 3 true).products :=
  ⟨((C6_page_error_policy (fun _ => .error "CJ API Error: Unknown error") 3 "kw" true
      (fun _ => true) (fun _ => false)).1 "CJ API Error: Unknown error" rfl).1,
   ((C6_page_error_policy (fun _ => .ok [⟨"item", "img"⟩]) 3 "kw" true
      (fun _ => true) (fun _ => false)).2 [⟨"item", "img"⟩] rfl).2.2.1
      ⟨"item", "img"⟩ (List.mem_singleton.mpr rfl)⟩

/-- Claim C6, counterexample to the claim as stated: with totalPages = 3 and
page 2 failing, page 3 IS still requested (3 is in the trace) and its items
are included — the fetch does not stop at the failure, so the result is not
just "items from earlier pages" (it has 2 items, pages 1 and 3, not 1). -/
theorem C6_counterexample :
    3 ∈ searchTrace
        (fun p => if p = 2 then .error "CJ API Error: Unknown error"
          else .ok [⟨"item", "img"⟩]) 3 true
    ∧ (searchCJProductsAll
        (fun p => if p = 2 then .error "CJ API Error: Unknown error"
          else .ok [⟨"item", "img"⟩]) 3 true).products.length = 2 := by
  constructor
  · decide
  · decide

/-- Claim C7 (amended): the orchestrator in backend/server.js reports
`passRate = finalCount / totalProducts × 100` where `totalProducts` is the
UPSTREAM-REPORTED total (not the fetched count), and the zero-denominator
case is NOT guarded — a zero upstream total yields the non-numeric
NaN/Infinity artifact (`none`) instead of 0%.  The legacy endpoint in
backend/cj-api-scraper.js does compute `finalCount / totalFetched` with the
zero case guarded to 0%, exactly as the claim states. -/
theorem C7_pass_rate (f t : Nat) :
    serverPassRate f (t + 1) = some (claimPassRate f (t + 1))
    ∧ serverPassRate f 0 = none
    ∧ legacyPassRate f t = claimPassRate f t := by
  refine ⟨?_, ?_, ?_⟩
  · simp [serverPassRate, claimPassRate]
  · simp [serverPassRate]
  · cases t with
    | zero => simp [legacyPassRate, claimPassRate]
    | succ t => simp [legacyPassRate, claimPassRate]

/-- Claim C7, counterexample to the claim as stated: for a job whose fetched
list has 2 products, whose upstream-reported total is 4 and whose final list
has 1 product, server.js reports 25% while `finalCount / totalFetched` is
50%; and for a zero upstream total the report is the NaN artifact (`none`),
not the claimed 0%. -/
theorem C7_counterexample :
    resultPassRate 4 [⟨"a", "i"⟩] = some 25
    ∧ claimPassRate 1 2 = 50
    ∧ resultPassRate 0 [] = none
    ∧ claimPassRate 0 0 = 0
    ∧ ([⟨"a", "i"⟩, ⟨"b", "i"⟩] : List Product).length = 2 := by
  refine ⟨?_, ?_, ?_, ?_, rfl⟩
  · show serverPassRate 1 4 = some 25
    rw [serverPassRate]
    norm_num
  · rw [claimPassRate]
    norm_num
  · rfl
  · rfl

theorem cancelScrapeOne_observed (id : String) :
    ∀ (sessions : List (String × Session)) (s : Session),
      scrapeGet sessions id = some s →
      observedCancelled (cancelScrapeOne sessions id) id = true := by
  intro sessions
  induction sessions with
  | nil => intro s hs; simp [scrapeGet] at hs
  | cons pr rest ih =>
    intro s hs
    rw [scrapeGet] at hs
    cases h : (pr.1 == id) with
    | true =>
      unfold observedCancelled cancelScrapeOne
      rw [List.map_cons]
      simp only [h, if_true]
      rw [scrapeGet]
      simp [h]
    | false =>
      simp only [h, Bool.false_eq_true, if_false] at hs
      have hrec := ih s hs
      unfold observedCancelled cancelScrapeOne at hrec ⊢
      rw [List.map_cons]
      simp only [h, Bool.false_eq_true, if_false]
      rw [scrapeGet]
      simp only [h, Bool.false_eq_true, if_false]
      exact hrec

/-- Claim C8 (amended): a single-job cancellation (the cancel endpoint)
leaves the session in the map with its flag set, so the job's next
checkpoint read observes it; observed at Vision batch boundary `j` the job
stops there, keeping exactly the passers of the `j` completed batches, while
observed at the job-level checkpoints before/after the fetch the job FAILS
with 'Scrape cancelled by user', discarding fetched items instead of
returning partial results.  cancel-all does set every live session object's
flag and reports every id, but then clears the `activeScrapes` map; since
every checkpoint reads the flag through `activeScrapes.get(scrapeId)`, no
job observes a cancel-all at any later checkpoint — the read is falsy on
the cleared map. -/
theorem C8_cancellation (classify : Product → Bool) (stop : Nat → Bool)
    (l : List Product) (j : Nat) (apiResult : FetchResult) (keyword : String)
    (useImageDetection : Bool) (sessions : List (String × Session)) (id : String) :
    ((∀ i, i < j → stop i = false) → stop j = true →
      imageLoop classify stop 0 l = (l.take (50 * j)).filter (batchEval classify))
    ∧ scrapeJob true false apiResult keyword useImageDetection classify stop
        = .error "Scrape cancelled by user"
    ∧ (apiResult.success = true →
        scrapeJob false true apiResult keyword useImageDetection classify stop
          = .error "Scrape cancelled by user")
    ∧ ((∃ s, scrapeGet sessions id = some s) →
        observedCancelled (cancelScrapeOne sessions id) id = true)
    ∧ (∀ pr ∈ cancelAllFlagged sessions, pr.2.cancelled = true)
    ∧ (cancelAllScrapes sessions).2 = sessions.map Prod.fst
    ∧ (cancelAllScrapes sessions).1 = []
    ∧ observedCancelled (cancelAllScrapes sessions).1 id = false := by
  refine ⟨?_, rfl, ?_, ?_, ?_, rfl, rfl, rfl⟩
  · intro hfalse hstop
    unfold imageLoop
    exact imageLoopGo_cancel_at classify stop j l.length l 0 le_rfl
      (fun i hi => by simpa using hfalse i hi) (by simpa using hstop)
  · intro hsucc
    simp [scrapeJob, hsucc]
  · intro hex
    obtain ⟨s, hs⟩ := hex
    exact cancelScrapeOne_observed id sessions s hs
  · intro pr hpr
    unfold cancelAllFlagged at hpr
    rw [List.mem_map] at hpr
    obtain ⟨q, _, rfl⟩ := hpr
    rfl

/-- Claim C8, witness: with cancellation first observed at batch boundary 1,
the loop output is the survivors of the first (and only completed) batch; a
job whose post-fetch cancellation check fires returns the cancellation
error; and after a single-job cancel the session's flag is observable at the
next checkpoint read. -/
theorem C8_cancellation_witness :
    imageLoop (fun _ => true) (fun i => decide (1 ≤ i)) 0 [⟨"t", "img"⟩]
      = (([⟨"t", "img"⟩] : List Product).take (50 * 1)).filter (batchEval (fun _ => true))
    ∧ scrapeJob false true ⟨true, [⟨"t", "img"⟩], 1⟩ "kw" true (fun _ => true)
        (fun _ => false)
      = .error "Scrape cancelled by user"
    ∧ observedCancelled (cancelScrapeOne [("job1", ⟨false, 0⟩)] "job1") "job1" = true :=
  ⟨(C8_cancellation (fun _ => true) (fun i => decide (1 ≤ i)) [⟨"t", "img"⟩] 1
      ⟨true, [⟨"t", "img"⟩], 1⟩ "kw" true [("job1", ⟨false, 0⟩)] "job1").1
      (fun i hi => by
        have hi0 : i = 0 := by omega
        subst hi0
        show decide (1 ≤ 0) = false
        decide)
      (show decide (1 ≤ 1) = true by decide),
   (C8_cancellation (fun _ => true) (fun i => decide (1 ≤ i)) [⟨"t", "img"⟩] 1
      ⟨true, [⟨"t", "img"⟩], 1⟩ "kw" true [("job1", ⟨false, 0⟩)] "job1").2.2.1 rfl,
   (C8_cancellation (fun _ => true) (fun i => decide (1 ≤ i)) [⟨"t", "img"⟩] 1
      ⟨true, [⟨"t", "img"⟩], 1⟩ "kw" true [("job1", ⟨false, 0⟩)] "job1").2.2.2.1
      ⟨⟨false, 0⟩, by decide⟩⟩

/-- Claim C8, counterexample to the claim as stated, at two checkpoints.
First: one item has been fetched (partial work exists) and a cancellation is
observed at the post-fetch checkpoint; the claim says the job returns "the
partial results accumulated so far", but the job returns the error 'Scrape
cancelled by user', discarding the fetched item.  Second: after cancel-all
on a live session "job1", every session object's flag was set, yet on the
map cancel-all leaves behind (cleared by `activeScrapes.clear()`) the
checkpoint read `activeScrapes.get("job1")?.cancelled` is false — the live
job never observes the cancel-all at any checkpoint, so "cancel-all achieves
this for every live session" fails. -/
theorem C8_counterexample :
    scrapeJob false true ⟨true, [⟨"sherpa blanket", "img"⟩], 1⟩ "sherpa blanket" true
        (fun _ => true) (fun _ => false)
      = .error "Scrape cancelled by user"
    ∧ (⟨true, [⟨"sherpa blanket", "img"⟩], 1⟩ : FetchResult).products.length = 1
    ∧ (∀ pr ∈ cancelAllFlagged [("job1", ⟨false, 0⟩)], pr.2.cancelled = true)
    ∧ observedCancelled (cancelAllScrapes [("job1", ⟨false, 0⟩)]).1 "job1" = false
    ∧ observedCancelled [("job1", (⟨false, 0⟩ : Session))] "job1" = false := by
  refine ⟨rfl, rfl, by decide, rfl, by decide⟩

theorem fetchTraceSpecGo_spec (upstream : Nat → List Product) (T ps : Nat) :
    ∀ (fuel p : Nat), 2 ≤ p → T + 1 ≤ p + fuel →
      ∃ m, fetchTraceSpecGo upstream T ps fuel p = List.range' p m
        ∧ (∀ q, p ≤ q → q < p + m →
            q ≤ T ∧ (q - 1) * ps < MAX_OFFSET ∧ (q = p ∨ upstream (q - 1) ≠ []))
        ∧ ((m = 0 ∧ (T < p ∨ MAX_OFFSET ≤ (p - 1) * ps))
            ∨ (1 ≤ m ∧ (upstream (p + m - 1) = [] ∨ T < p + m
                ∨ MAX_OFFSET ≤ (p + m - 1) * ps))) := by
  intro fuel
  induction fuel with
  | zero =>
    intro p hp2 hfuel
    refine ⟨0, rfl, ?_, ?_⟩
    · intro q hq1 hq2; omega
    · left; exact ⟨rfl, Or.inl (by omega)⟩
  | succ fuel ih =>
    intro p hp2 hfuel
    by_cases h1 : T < p
    · refine ⟨0, ?_, ?_, ?_⟩
      · rw [fetchTraceSpecGo, if_pos h1]; rfl
      · intro q hq1 hq2; omega
      · left; exact ⟨rfl, Or.inl h1⟩
    · by_cases h2 : MAX_OFFSET ≤ (p - 1) * ps
      · refine ⟨0, ?_, ?_, ?_⟩
        · rw [fetchTraceSpecGo, if_neg h1, if_pos h2]; rfl
        · intro q hq1 hq2; omega
        · left; exact ⟨rfl, Or.inr h2⟩
      · by_cases h3 : upstream p = []
        · refine ⟨1, ?_, ?_, ?_⟩
          · rw [fetchTraceSpecGo, if_neg h1, if_neg h2, if_pos h3]; rfl
          · intro q hq1 hq2
            have hq : q = p := by omega
            subst hq
            exact ⟨by omega, by omega, Or.inl rfl⟩
          · right
            refine ⟨le_rfl, Or.inl ?_⟩
            have hpp : p + 1 - 1 = p := by omega
            rw [hpp]
            exact h3
        · obtain ⟨m, heq, hq, hreason⟩ := ih (p + 1) (by omega) (by omega)
          refine ⟨m + 1, ?_, ?_, ?_⟩
          · rw [fetchTraceSpecGo, if_neg h1, if_neg h2, if_neg h3, heq, List.range'_succ]
          · intro q hq1 hq3
            by_cases hqp : q = p
            · subst hqp
              exact ⟨by omega, by omega, Or.inl rfl⟩
            · obtain ⟨ha, hb, hc⟩ := hq q (by omega) (by omega)
              refine ⟨ha, hb, Or.inr ?_⟩
              rcases hc with hceq | hcne
              · have hq1p : q - 1 = p := by omega
                rw [hq1p]
                exact h3
              · exact hcne
          · rcases hreason with ⟨hm0, hr⟩ | ⟨hm1, hr⟩
            · right
              refine ⟨by omega, ?_⟩
              rcases hr with hra | hrb
              · right; left; omega
              · right; right
                have hidx : p + (m + 1) - 1 = p + 1 - 1 := by omega
                rw [hidx]
                exact hrb
            · right
              refine ⟨by omega, ?_⟩
              have hidx : p + (m + 1) - 1 = p + 1 + m - 1 := by omega
              have hidx2 : p + (m + 1) = p + 1 + m := by omega
              rw [hidx, hidx2]
              exact hr

/-- Claim C1 (spec-modelled: the current fetcher with the `MAX_OFFSET`
ceiling is not among the sources; `fetchTraceSpec` models it from spec
§4.1/§8): pagination requests exactly the consecutive pages 1..n, where
every requested page p ≥ 2 is within the upstream-reported total page count,
starts at an offset below the ceiling, and follows a nonempty page; and the
loop stops after page n only because page n was empty, or the total page
count is reached, or the next page's offset would hit the ceiling — so no
page beyond the first stop condition is ever requested.  The spec's scenario
(total 50000, reported page size 200, ceiling 6000) requests exactly pages
1..30. -/
theorem C1_pagination_stops (upstream : Nat → List Product) (total pageSize : Nat) :
    (∃ n, fetchTraceSpec upstream total pageSize = List.range' 1 n
      ∧ 1 ≤ n
      ∧ (∀ p, 2 ≤ p → p ≤ n →
          p ≤ totalPagesOf total pageSize
          ∧ (p - 1) * pageSize < MAX_OFFSET
          ∧ upstream (p - 1) ≠ [])
      ∧ (upstream n = [] ∨ totalPagesOf total pageSize < n + 1
          ∨ MAX_OFFSET ≤ n * pageSize))
    ∧ fetchTraceSpec (fun _ => [⟨"x", "img"⟩]) 50000 200 = List.range' 1 30 := by
  constructor
  · by_cases h1 : upstream 1 = []
    · refine ⟨1, ?_, le_rfl, ?_, Or.inl h1⟩
      · simp only [fetchTraceSpec]
        rw [if_pos h1]
        rfl
      · intro p hp2 hp1; omega
    · obtain ⟨m, heq, hq, hreason⟩ := fetchTraceSpecGo_spec upstream
        (totalPagesOf total pageSize) pageSize (totalPagesOf total pageSize + 1) 2
        (by omega) (by omega)
      refine ⟨m + 1, ?_, by omega, ?_, ?_⟩
      · simp only [fetchTraceSpec]
        rw [if_neg h1, heq, List.range'_succ]
      · intro p hp2 hpn
        obtain ⟨ha, hb, hc⟩ := hq p (by omega) (by omega)
        refine ⟨ha, hb, ?_⟩
        rcases hc with hceq | hcne
        · have hp1 : p - 1 = 1 := by omega
          rw [hp1]
          exact h1
        · exact hcne
      · rcases hreason with ⟨hm0, hr⟩ | ⟨hm1, hr⟩
        · rcases hr with hra | hrb
          · right; left; omega
          · right; right
            have hidx : m + 1 = 2 - 1 := by omega
            rw [hidx]
            exact hrb
        · have hidx : 2 + m - 1 = m + 1 := by omega
          rw [hidx] at hr
          rcases hr with hra | hrb | hrc
          · exact Or.inl hra
          · right; left; omega
          · right; right; exact hrc
  · decide

end CJScraper
